import Mathlib

/-!
Verification of the slop-shop directive scanner and unified-diff engine
(`tools` package). The definitions below are a shallow embedding of the Go
source: each `def` mirrors one Go function or one phase of it, keeping the
source's names where Lean allows. Go byte-string operations are modelled on
`List Char`; Go `int` is modelled as `Int` (the inputs in the claims are far
from the 64-bit range, so overflow is immaterial); a Go runtime panic from an
out-of-range slice access is modelled as `Option.none`.
-/

namespace SlopShop

instance {α β : Type} [DecidableEq α] [DecidableEq β] : DecidableEq (Except α β)
  | .error x, .error y => decidable_of_iff (x = y) (by simp)
  | .error _, .ok _ => isFalse (by simp)
  | .ok _, .error _ => isFalse (by simp)
  | .ok x, .ok y => decidable_of_iff (x = y) (by simp)

/-- Whitespace predicate used by Go's `strings.TrimSpace` (ASCII subset;
all inputs in this development are ASCII). -/
def isGoSpace (c : Char) : Bool :=
  c = ' ' || c = '\t' || c = '\n' || c = Char.ofNat 11 || c = Char.ofNat 12 || c = '\r'

/-- Model of Go `strings.TrimSpace`: drop leading and trailing whitespace. -/
def goTrim (s : String) : String :=
  String.mk (((s.data.dropWhile isGoSpace).reverse.dropWhile isGoSpace).reverse)

/-- Split a character list at every occurrence of `c`; like Go
`strings.Split`, the empty input yields one empty field. -/
def splitChar (c : Char) : List Char → List (List Char)
  | [] => [[]]
  | x :: xs =>
    match splitChar c xs with
    | [] => [[]]
    | y :: ys => if x = c then [] :: y :: ys else (x :: y) :: ys

/-- Model of Go `strings.Split(s, string(c))`. -/
def goSplit (s : String) (c : Char) : List String :=
  (splitChar c s.data).map String.mk

/-- Model of Go `strings.HasPrefix`. -/
def goStartsWith (s pre : String) : Bool :=
  pre.data.isPrefixOf s.data

/-- Model of Go `strings.TrimPrefix`: drop `pre` from the front of `s`
when present, otherwise return `s` unchanged. -/
def goDropStart (s pre : String) : String :=
  if pre.data.isPrefixOf s.data then String.mk (s.data.drop pre.data.length) else s

/-- Model of Go `strings.HasSuffix`. -/
def goEndsWith (s suf : String) : Bool :=
  suf.data.isSuffixOf s.data

/-- Model of Go `strings.Join`. -/
def goJoin (sep : String) : List String → String
  | [] => ""
  | [x] => x
  | x :: y :: ys => x ++ sep ++ goJoin sep (y :: ys)

/-- Value of a digit list, `none` unless nonempty and all decimal digits. -/
def digitsVal : List Char → Option Nat
  | [] => none
  | [c] => if c.isDigit then some (c.toNat - '0'.toNat) else none
  | c :: d :: ds =>
    if c.isDigit then
      (digitsVal (d :: ds)).map (fun n => (c.toNat - '0'.toNat) * 10 ^ (d :: ds).length + n)
    else none

/-- Successful case of Go `strconv.Atoi`: an optional sign followed by at
least one decimal digit (64-bit range clamping is not modelled; every
numeral in this development is tiny). -/
def parseIntOpt (s : String) : Option Int :=
  match s.data with
  | '+' :: rest => (digitsVal rest).map Int.ofNat
  | '-' :: rest => (digitsVal rest).map (fun n => -(n : Int))
  | l => (digitsVal l).map Int.ofNat

/-- Model of Go `strconv.Atoi` as used in the source: the error is discarded,
so a malformed token yields the zero value. -/
def goAtoi (s : String) : Int :=
  (parseIntOpt s).getD 0

/-- Go struct `DiffLine` (`Type`, `Content`, `LineNum`); `Type` is a Lean
keyword, so the field is named `Ty` here. -/
structure DiffLine where
  Ty : String
  Content : String
  LineNum : Int := 0
  deriving DecidableEq

/-- Go struct `DiffHunk`. -/
structure DiffHunk where
  OldStart : Int
  OldCount : Int
  NewStart : Int
  NewCount : Int
  Lines : List DiffLine := []
  deriving DecidableEq

/-- Go struct `DiffChange`. -/
structure DiffChange where
  FilePath : String
  Hunks : List DiffHunk := []
  deriving DecidableEq

/-- Go `parseRange`: split on commas; the first token is the start (permissive
`Atoi`, malformed tokens give 0), the second, when present, is the count,
defaulting to 1 when absent. -/
def parseRange (rangeStr : String) : Int × Int :=
  let parts := goSplit rangeStr ','
  let start := goAtoi (parts.headD "")
  match parts with
  | _ :: c :: _ => (start, goAtoi c)
  | _ => (start, 1)

/-- Close the open hunk into the open change, as Go's
`currentChange.Hunks = append(currentChange.Hunks, *currentHunk)`. -/
def closeHunk (c : DiffChange) : Option DiffHunk → DiffChange
  | some h => { c with Hunks := c.Hunks ++ [h] }
  | none => c

/-- One iteration of the Go `parseDiff` loop on one input line, carrying the
loop state (accumulated changes, the open `DiffChange`, the open `DiffHunk`).
`Except.error` models Go's `return nil, fmt.Errorf(...)`. -/
def parseDiffStep (changes : List DiffChange) (cc : Option DiffChange) (ch : Option DiffHunk)
    (line : String) : Except String (List DiffChange × Option DiffChange × Option DiffHunk) :=
  let l := goTrim line
  if l = "" then .ok (changes, cc, ch)
  else if goStartsWith l "--- a/" then
    let changes' := match cc with
      | some c => changes ++ [closeHunk c ch]
      | none => changes
    .ok (changes', some { FilePath := goDropStart l "--- a/" }, none)
  else if goStartsWith l "+++ b/" then
    let fp := goDropStart l "+++ b/"
    match cc with
    | some c =>
      if c.FilePath ≠ fp then
        .error ("mismatched file paths in diff: " ++ c.FilePath ++ " vs " ++ fp)
      else .ok (changes, cc, ch)
    | none => .ok (changes, cc, ch)
  else if goStartsWith l "@@" then
    let cc' := match cc, ch with
      | some c, some h => some { c with Hunks := c.Hunks ++ [h] }
      | _, _ => cc
    let parts := goSplit l ' '
    if parts.length < 3 then .ok (changes, cc', ch)
    else
      let oldPart := goDropStart (parts.getD 1 "") "-"
      let newPart := goDropStart (parts.getD 2 "") "+"
      let old := parseRange oldPart
      let new := parseRange newPart
      .ok (changes, cc',
        some { OldStart := old.1, OldCount := old.2, NewStart := new.1, NewCount := new.2 })
  else
    match ch with
    | some h =>
      let dl : DiffLine :=
        if goStartsWith l "+" then { Ty := "+", Content := goDropStart l "+" }
        else if goStartsWith l "-" then { Ty := "-", Content := goDropStart l "-" }
        else { Ty := " ", Content := l }
      .ok (changes, cc, some { h with Lines := h.Lines ++ [dl] })
    | none => .ok (changes, cc, ch)

/-- The body of Go `parseDiff`: run `parseDiffStep` over the lines, stopping
at the first error; at end of input flush the open hunk and change. -/
def parseDiffLoop : List String → List DiffChange → Option DiffChange → Option DiffHunk →
    Except String (List DiffChange)
  | [], changes, cc, ch =>
    match cc with
    | some c => .ok (changes ++ [closeHunk c ch])
    | none => .ok changes
  | line :: rest, changes, cc, ch =>
    match parseDiffStep changes cc ch line with
    | .error e => .error e
    | .ok (changes', cc', ch') => parseDiffLoop rest changes' cc' ch'

/-- Go `parseDiff`: split the diff text on newlines and run the loop. -/
def parseDiff (diffOutput : String) : Except String (List DiffChange) :=
  parseDiffLoop (goSplit diffOutput '\n') [] none none

/-- The replacement lines a hunk contributes to the post-image: content of
its added and context lines, in order (Go builds this as `newLines`). -/
def replLines (h : DiffHunk) : List String :=
  (h.Lines.filter (fun l => l.Ty = "+" || l.Ty = " ")).map (fun l => l.Content)

/-- Removal phase of Go `applyHunk`: when `OldCount > 0`, delete
`lines[start : min (start+OldCount) len]` with the end bound clamped to the
length. `none` models the Go panic when `start` itself is outside `[0, len]`
(the code clamps only the end bound, never `start`). -/
def removeHunkLines (lines : List String) (h : DiffHunk) : Option (List String) :=
  if 0 < h.OldCount then
    if 0 ≤ h.OldStart - 1 ∧ h.OldStart - 1 ≤ (lines.length : Int) then
      some (lines.take (h.OldStart - 1).toNat ++
            lines.drop (min (h.OldStart - 1 + h.OldCount) (lines.length : Int)).toNat)
    else none
  else some lines

/-- Insertion phase of Go `applyHunk`: when the replacement is nonempty,
splice it in at `start`. `none` models the Go panic when `start` is outside
`[0, len]`. -/
def insertHunkLines (lines : List String) (h : DiffHunk) : Option (List String) :=
  if (replLines h).isEmpty then some lines
  else if 0 ≤ h.OldStart - 1 ∧ h.OldStart - 1 ≤ (lines.length : Int) then
    some (lines.take (h.OldStart - 1).toNat ++ replLines h ++ lines.drop (h.OldStart - 1).toNat)
  else none

/-- Go `applyHunk`: removal phase then insertion phase. -/
def applyHunk (lines : List String) (h : DiffHunk) : Option (List String) :=
  (removeHunkLines lines h).bind (fun ls => insertHunkLines ls h)

/-- The hunk loop of Go `applyFileChange`: apply the hunks in reverse order
(`for i := len(change.Hunks) - 1; i >= 0; i--`). -/
def applyHunksGo (lines : List String) (hunks : List DiffHunk) : Option (List String) :=
  hunks.foldr (fun h acc => acc.bind (fun ls => applyHunk ls h)) (some lines)

/-- The pure content transformation of Go `applyFileChange`: split on
newlines, apply all hunks in reverse order, rejoin, and append a trailing
newline when the result lacks one. -/
def applyFileContent (content : String) (change : DiffChange) : Option String :=
  (applyHunksGo (goSplit content '\n') change.Hunks).map (fun ls =>
    let newContent := goJoin "\n" ls
    if goEndsWith newContent "\n" then newContent else newContent ++ "\n")

/-- Model of Go `strings.SplitN(s, " ", 2)`: split at the first space only;
without any space the result is the single original string. -/
def splitN2Space (s : String) : List String :=
  if s.data.any (fun c => c = ' ') then
    [String.mk (s.data.takeWhile (fun c => c ≠ ' ')),
     String.mk ((s.data.dropWhile (fun c => c ≠ ' ')).drop 1)]
  else [s]

/-- One recognized directive of `ExecuteTools`, with the arguments the Go
code would hand to the corresponding handler. -/
inductive ToolCall where
  | runCommand (cmd : String)
  | readFile (path : String)
  | listDir (dir : String)
  | testCommand (cmd : String)
  | searchFiles (pattern dir : String)
  | generateDiff (desc : String)
  | applyDiffCall (diff : String)
  | createFile (path payload : String)
  deriving DecidableEq

/-- The CREATE_FILE payload collection of Go `ExecuteTools`: raw (untrimmed)
lines of the response starting at index `i`, up to the first line that
trims to `END_FILE`, joined with newlines. The Go code passes the running
tool count as `i` (`for i := toolCount; ...`). -/
def collectPayload (allLines : List String) (i : Nat) : String :=
  goJoin "\n" ((allLines.drop i).takeWhile (fun x => goTrim x ≠ "END_FILE"))

/-- The scanning loop of Go `ExecuteTools`: each nonblank trimmed line is
tested against the fixed directive prefixes; `tc` carries the running
`toolCount`, which every matched directive increments (SEARCH_FILES even
when its argument split fails). The full line list is carried separately
because CREATE_FILE's payload collection indexes into it by `toolCount`. -/
def scanLines (allLines : List String) : List String → Nat → List ToolCall
  | [], _ => []
  | line :: rest, tc =>
    let t := goTrim line
    if t = "" then scanLines allLines rest tc
    else if goStartsWith t "RUN_COMMAND:" then
      .runCommand (goTrim (goDropStart t "RUN_COMMAND:")) :: scanLines allLines rest (tc + 1)
    else if goStartsWith t "READ_FILE:" then
      .readFile (goTrim (goDropStart t "READ_FILE:")) :: scanLines allLines rest (tc + 1)
    else if goStartsWith t "LIST_DIR:" then
      .listDir (goTrim (goDropStart t "LIST_DIR:")) :: scanLines allLines rest (tc + 1)
    else if goStartsWith t "TEST_COMMAND:" then
      .testCommand (goTrim (goDropStart t "TEST_COMMAND:")) :: scanLines allLines rest (tc + 1)
    else if goStartsWith t "SEARCH_FILES:" then
      match splitN2Space (goDropStart t "SEARCH_FILES:") with
      | [p, d] => .searchFiles (goTrim p) (goTrim d) :: scanLines allLines rest (tc + 1)
      | _ => scanLines allLines rest (tc + 1)
    else if goStartsWith t "GENERATE_DIFF:" then
      .generateDiff (goTrim (goDropStart t "GENERATE_DIFF:")) :: scanLines allLines rest (tc + 1)
    else if goStartsWith t "APPLY_DIFF:" then
      .applyDiffCall (goTrim (goDropStart t "APPLY_DIFF:")) :: scanLines allLines rest (tc + 1)
    else if goStartsWith t "CREATE_FILE:" then
      .createFile (goTrim (goDropStart t "CREATE_FILE:")) (collectPayload allLines (tc + 1)) ::
        scanLines allLines rest (tc + 1)
    else scanLines allLines rest tc

/-- The directive sequence Go `ExecuteTools` recognizes and dispatches for a
response text, in order. -/
def scanTools (response : String) : List ToolCall :=
  scanLines (goSplit response '\n') (goSplit response '\n') 0

/-- The repository as a map from relative file path to content; the
`repoPath` prefix that Go joins onto every path is abstracted away. -/
abbrev FS := List (String × String)

/-- Model of `os.ReadFile`: `none` is a read error (file absent). -/
def fsRead (fs : FS) (p : String) : Option String :=
  (fs.find? (fun e => e.1 = p)).map (fun e => e.2)

/-- Model of `os.WriteFile` (always succeeds). -/
def fsWrite (fs : FS) (p c : String) : FS :=
  (p, c) :: fs

/-- Go `applyFileChange` against the filesystem model: read the file (a
missing file is the wrapped read error), transform its content, write it
back. The result is `(filesystem, error)`; the outer `none` models a Go
panic inside `applyHunk`, which `applyFileChange` does not catch. -/
def applyFileChangeFS (change : DiffChange) (fs : FS) : Option (FS × Option String) :=
  match fsRead fs change.FilePath with
  | none => some (fs, some "failed to read file")
  | some content =>
    match applyFileContent content change with
    | none => none
    | some newContent => some (fsWrite fs change.FilePath newContent, none)

/-- The per-file loop of Go `applyDiff`: apply each change in order; the
first failure is wrapped with the file's path and returned at once, leaving
files already written in place. -/
def applyChangesGo : List DiffChange → FS → Option (FS × Option String)
  | [], fs => some (fs, none)
  | c :: rest, fs =>
    match applyFileChangeFS c fs with
    | none => none
    | some (fs', some e) =>
      some (fs', some ("failed to apply change to " ++ c.FilePath ++ ": " ++ e))
    | some (fs', none) => applyChangesGo rest fs'

/-- Go `applyDiff`: parse the diff text, then apply each file's change; a
parse error is wrapped and returned before any file is touched. -/
def applyDiffGo (diffOutput : String) (fs : FS) : Option (FS × Option String) :=
  match parseDiff diffOutput with
  | .error e => some (fs, some ("failed to parse diff: " ++ e))
  | .ok changes => applyChangesGo changes fs

/-- The two-hunk diff text of the C1 test vector. -/
def diffTextC1 : String :=
  "--- a/f.txt\n+++ b/f.txt\n@@ -1,1 +1,1 @@\n-a\n+A\n@@ -3,1 +3,1 @@\n-c\n+C"

/-- The first hunk parsed from `diffTextC1`. -/
def hunkC1a : DiffHunk :=
  { OldStart := 1, OldCount := 1, NewStart := 1, NewCount := 1,
    Lines := [{ Ty := "-", Content := "a" }, { Ty := "+", Content := "A" }] }

/-- The second hunk parsed from `diffTextC1`. -/
def hunkC1b : DiffHunk :=
  { OldStart := 3, OldCount := 1, NewStart := 3, NewCount := 1,
    Lines := [{ Ty := "-", Content := "c" }, { Ty := "+", Content := "C" }] }

/-- C1: parsing the two-hunk diff for one file yields the expected
`DiffChange`, and applying it to the pre-image `["a","b","c","d"]` (hunk 2
spliced first, then hunk 1) produces the post-image `["A","b","C","d"]`. -/
theorem spec_C1_two_hunk_apply :
    parseDiff diffTextC1 = .ok [{ FilePath := "f.txt", Hunks := [hunkC1a, hunkC1b] }] ∧
    applyHunksGo ["a", "b", "c", "d"] [hunkC1a, hunkC1b] = some ["A", "b", "C", "d"] := by
  constructor <;> decide

/-- The single-line-insertion diff text of the C2 test vector. -/
def diffTextC2 : String :=
  "--- a/e.txt\n+++ b/e.txt\n@@ -1,0 +1,1 @@\n+new line"

/-- The change parsed from `diffTextC2`. -/
def changeC2 : DiffChange :=
  { FilePath := "e.txt",
    Hunks := [{ OldStart := 1, OldCount := 0, NewStart := 1, NewCount := 1,
                Lines := [{ Ty := "+", Content := "new line" }] }] }

/-- C2: parsing the `@@ -1,0 +1,1 @@` insertion diff and applying the
resulting change to the empty content produces exactly `"new line\n"`: the
lines are rejoined with newlines and a trailing newline is appended when the
joined result lacks one. -/
theorem spec_C2_insert_into_empty :
    parseDiff diffTextC2 = .ok [changeC2] ∧
    applyFileContent "" changeC2 = some "new line\n" := by
  constructor <;> decide

/-- C7 (code bug): the CREATE_FILE payload collection starts at the line
index equal to the running tool count, not at the line after the directive.
With a prose line before the directive, the payload wrongly includes the
directive line itself instead of being exactly `"hello"`; and a payload line
that looks like a directive is re-scanned and dispatched (the RUN_COMMAND
below is both collected into the payload and executed). -/
theorem spec_C7_payload_bug :
    scanTools "Sure:\nCREATE_FILE: a.txt\nhello\nEND_FILE" =
      [.createFile "a.txt" "CREATE_FILE: a.txt\nhello"] ∧
    scanTools "CREATE_FILE: b.txt\nRUN_COMMAND: echo hi\nEND_FILE" =
      [.createFile "b.txt" "RUN_COMMAND: echo hi", .runCommand "echo hi"] := by
  constructor <;> decide

/-- C8 (code bug): `SplitN` runs on the un-trimmed remainder after the
`SEARCH_FILES:` prefix, so the leading space becomes the split point. A line
with a single token after the prefix is not skipped: the handler is invoked
with an empty pattern; and with the documented two-token format the pattern
is again empty and the whole remainder becomes the directory. -/
theorem spec_C8_search_split_bug :
    scanTools "SEARCH_FILES: onlyone" = [.searchFiles "" "onlyone"] ∧
    scanTools "SEARCH_FILES: main ." = [.searchFiles "" "main ."] := by
  constructor <;> decide

theorem take_append_eq {α : Type} (l₁ l₂ : List α) (n : Nat) (hn : l₁.length = n) :
    (l₁ ++ l₂).take n = l₁ := by
  subst hn; exact List.take_left l₁ l₂

theorem drop_append_eq {α : Type} (l₁ l₂ : List α) (n : Nat) (hn : l₁.length = n) :
    (l₁ ++ l₂).drop n = l₂ := by
  subst hn; exact List.drop_left l₁ l₂

theorem removeHunkLines_zero (ls : List String) (h : DiffHunk) (hz : ¬ 0 < h.OldCount) :
    removeHunkLines ls h = some ls := by
  unfold removeHunkLines; rw [if_neg hz]

theorem removeHunkLines_pos (ls : List String) (h : DiffHunk)
    (hs : 1 ≤ h.OldStart) (hpos : 0 < h.OldCount)
    (hle : h.OldStart - 1 ≤ (ls.length : Int)) :
    removeHunkLines ls h =
      some (ls.take (h.OldStart - 1).toNat ++
            ls.drop (min (h.OldStart - 1 + h.OldCount) (ls.length : Int)).toNat) := by
  unfold removeHunkLines; rw [if_pos hpos, if_pos ⟨by omega, hle⟩]

theorem insertHunkLines_eq (ls : List String) (h : DiffHunk)
    (hs : 1 ≤ h.OldStart) (hle : h.OldStart - 1 ≤ (ls.length : Int)) :
    insertHunkLines ls h =
      some (ls.take (h.OldStart - 1).toNat ++ replLines h ++ ls.drop (h.OldStart - 1).toNat) := by
  unfold insertHunkLines
  by_cases hemp : (replLines h).isEmpty
  · have hnil : replLines h = [] := by simpa using hemp
    rw [if_pos hemp, hnil]
    simp [List.take_append_drop]
  · rw [if_neg hemp, if_pos ⟨by omega, hle⟩]

/-- Under the in-range precondition, `applyHunk` is exactly a splice: keep
the first `oldStart - 1` lines, emit the hunk's added and context lines,
and resume at pre-image position `oldStart - 1 + oldCount`. -/
theorem applyHunk_splice (ls : List String) (h : DiffHunk)
    (hs : 1 ≤ h.OldStart) (hc : 0 ≤ h.OldCount)
    (hb : h.OldStart - 1 + h.OldCount ≤ (ls.length : Int)) :
    applyHunk ls h =
      some (ls.take (h.OldStart - 1).toNat ++ replLines h ++
            ls.drop ((h.OldStart - 1).toNat + h.OldCount.toNat)) := by
  have hsnat : ((h.OldStart - 1).toNat : Int) = h.OldStart - 1 := Int.toNat_of_nonneg (by omega)
  have hcnat : (h.OldCount.toNat : Int) = h.OldCount := Int.toNat_of_nonneg hc
  have hscle : (h.OldStart - 1).toNat + h.OldCount.toNat ≤ ls.length := by omega
  have htklen : (ls.take (h.OldStart - 1).toNat).length = (h.OldStart - 1).toNat := by
    rw [List.length_take]; omega
  by_cases hpos : 0 < h.OldCount
  · have hmin : min (h.OldStart - 1 + h.OldCount) ((ls.length : Int)) =
        h.OldStart - 1 + h.OldCount := min_eq_left hb
    have harg : (min (h.OldStart - 1 + h.OldCount) ((ls.length : Int))).toNat =
        (h.OldStart - 1).toNat + h.OldCount.toNat := by
      rw [hmin]; omega
    have hrem : removeHunkLines ls h =
        some (ls.take (h.OldStart - 1).toNat ++
              ls.drop ((h.OldStart - 1).toNat + h.OldCount.toNat)) := by
      rw [removeHunkLines_pos ls h hs hpos (by omega), harg]
    have hlen' : h.OldStart - 1 ≤
        (((ls.take (h.OldStart - 1).toNat ++
           ls.drop ((h.OldStart - 1).toNat + h.OldCount.toNat))).length : Int) := by
      rw [List.length_append, htklen, List.length_drop]
      omega
    rw [applyHunk, hrem, Option.some_bind, insertHunkLines_eq _ h hs hlen']
    rw [take_append_eq _ _ _ htklen, drop_append_eq _ _ _ htklen]
  · have hc0 : h.OldCount = 0 := by omega
    have hzn : h.OldCount.toNat = 0 := by omega
    rw [applyHunk, removeHunkLines_zero ls h hpos, Option.some_bind,
        insertHunkLines_eq ls h hs (by omega), hzn, Nat.add_zero]

/-- C10: `applyHunk` is total exactly under the start-bound precondition
`1 ≤ oldStart ≤ length + 1` that the spec leaves unstated: inside the range
no slice access is out of bounds, while outside it any hunk that actually
edits (a positive removal count or a nonempty replacement) hits a negative
or past-the-end slice bound and panics (modelled as `none`). `parseRange`
yields the outside value `oldStart = 0` for a malformed start token. -/
theorem spec_C10_start_bound :
    (∀ (ls : List String) (h : DiffHunk), 1 ≤ h.OldStart → h.OldStart ≤ (ls.length : Int) + 1 →
      (applyHunk ls h).isSome) ∧
    (∀ (ls : List String) (h : DiffHunk), h.OldStart < 1 ∨ (ls.length : Int) + 1 < h.OldStart →
      0 < h.OldCount ∨ replLines h ≠ [] → applyHunk ls h = none) ∧
    parseRange "x" = (0, 1) := by
  refine ⟨?_, ?_, by decide⟩
  · intro ls h hs hle
    by_cases hpos : 0 < h.OldCount
    · have hrem := removeHunkLines_pos ls h hs hpos (by omega)
      have hmin1 : min (h.OldStart - 1 + h.OldCount) ((ls.length : Int)) ≤ (ls.length : Int) :=
        min_le_right _ _
      have hmin2 : h.OldStart - 1 ≤ min (h.OldStart - 1 + h.OldCount) ((ls.length : Int)) :=
        le_min (by omega) (by omega)
      have hlen' : h.OldStart - 1 ≤
          ((ls.take (h.OldStart - 1).toNat ++
            ls.drop (min (h.OldStart - 1 + h.OldCount) ((ls.length : Int))).toNat).length : Int) := by
        rw [List.length_append, List.length_take, List.length_drop]
        omega
      rw [applyHunk, hrem, Option.some_bind, insertHunkLines_eq _ h hs hlen']
      rfl
    · rw [applyHunk, removeHunkLines_zero ls h hpos, Option.some_bind,
          insertHunkLines_eq ls h hs (by omega)]
      rfl
  · intro ls h hout hedit
    by_cases hpos : 0 < h.OldCount
    · have hrem : removeHunkLines ls h = none := by
        unfold removeHunkLines
        rw [if_pos hpos, if_neg (by omega)]
      rw [applyHunk, hrem, Option.none_bind]
    · have hne : replLines h ≠ [] := by
        rcases hedit with hp | hn
        · exact absurd hp hpos
        · exact hn
      have hemp : ¬ ((replLines h).isEmpty = true) := by
        simpa using hne
      rw [applyHunk, removeHunkLines_zero ls h hpos, Option.some_bind]
      unfold insertHunkLines
      rw [if_neg hemp, if_neg (by omega)]

/-- Closed instance of `spec_C10_start_bound`: the in-range side at
`oldStart = 3` on a two-line file (no panic even with a huge `oldCount`),
and the out-of-range side at `oldStart = 0`, the value `parseRange` yields
for a malformed start token. -/
theorem spec_C10_witness :
    (applyHunk ["a", "b"]
      { OldStart := 3, OldCount := 5, NewStart := 1, NewCount := 1,
        Lines := [{ Ty := "+", Content := "x" }] }).isSome ∧
    applyHunk ["a", "b"]
      { OldStart := 0, OldCount := 1, NewStart := 1, NewCount := 1,
        Lines := [{ Ty := "+", Content := "x" }] } = none := by
  exact ⟨spec_C10_start_bound.1 ["a", "b"] _ (by decide) (by decide),
         spec_C10_start_bound.2.1 ["a", "b"] _ (by decide) (by decide)⟩

/-- The C4 counterexample hunk: `oldStart = 0` (the value `parseRange`
produces for a malformed start token) with `oldCount = 3`, which exceeds
the 2 lines that remain from position 0 in the one-line file `["a"]`. -/
def hunkC4cex : DiffHunk :=
  { OldStart := 0, OldCount := 3, NewStart := 1, NewCount := 1,
    Lines := [{ Ty := "+", Content := "x" }] }

/-- C4 counterexample: a hunk whose `oldCount` exceeds the lines remaining
from `oldStart` for which `applyHunk` is nevertheless a hard failure (an
out-of-range start index, modelled as `none`), because the code clamps only
the removal's end bound, never the start. -/
theorem spec_C4_cex :
    (1 : Int) - (hunkC4cex.OldStart - 1) < hunkC4cex.OldCount ∧
    applyHunk ["a"] hunkC4cex = none := by
  decide

/-- C4 as amended: for a hunk whose start is in range (`1 ≤ oldStart ≤
length + 1`) and whose `oldCount` exceeds the lines remaining from
`oldStart`, `applyHunk` clamps the removal's end bound to the sequence
length and succeeds without any out-of-range access: it removes the lines
from `oldStart` to end-of-file and appends the replacement. -/
theorem spec_C4_clamp (ls : List String) (h : DiffHunk)
    (hs : 1 ≤ h.OldStart) (hle : h.OldStart ≤ (ls.length : Int) + 1)
    (hbig : (ls.length : Int) - (h.OldStart - 1) < h.OldCount) :
    applyHunk ls h = some (ls.take (h.OldStart - 1).toNat ++ replLines h) := by
  have hpos : 0 < h.OldCount := by omega
  have hmin : min (h.OldStart - 1 + h.OldCount) ((ls.length : Int)) = (ls.length : Int) :=
    min_eq_right (by omega)
  have htklen : (ls.take (h.OldStart - 1).toNat).length = (h.OldStart - 1).toNat := by
    rw [List.length_take]; omega
  have hrem : removeHunkLines ls h = some (ls.take (h.OldStart - 1).toNat) := by
    rw [removeHunkLines_pos ls h hs hpos (by omega), hmin]
    have : ((ls.length : Int)).toNat = ls.length := by omega
    rw [this, List.drop_length, List.append_nil]
  have hlen' : h.OldStart - 1 ≤ ((ls.take (h.OldStart - 1).toNat).length : Int) := by
    rw [htklen]; omega
  have h1 : (ls.take (h.OldStart - 1).toNat).take (h.OldStart - 1).toNat =
      ls.take (h.OldStart - 1).toNat := by
    rw [List.take_take, min_self]
  have h2 : (ls.take (h.OldStart - 1).toNat).drop (h.OldStart - 1).toNat = [] := by
    apply List.drop_eq_nil_of_le
    rw [htklen]
  rw [applyHunk, hrem, Option.some_bind, insertHunkLines_eq _ h hs hlen', h1, h2, List.append_nil]

/-- Closed instance of `spec_C4_clamp`: removing 99 lines from position 2
of a three-line file clamps to end-of-file instead of failing. -/
theorem spec_C4_witness :
    applyHunk ["a", "b", "c"]
      { OldStart := 2, OldCount := 99, NewStart := 2, NewCount := 1,
        Lines := [{ Ty := "+", Content := "X" }] } = some ["a", "X"] := by
  have h := spec_C4_clamp ["a", "b", "c"]
    { OldStart := 2, OldCount := 99, NewStart := 2, NewCount := 1,
      Lines := [{ Ty := "+", Content := "X" }] } (by decide) (by decide) (by decide)
  exact h.trans (by decide)

/-- C3: `applyFileChange` applies the hunks of a `DiffChange` in reverse
order (for two hunks, the second is spliced first), and for two in-range
hunks with ascending, non-overlapping `oldStart` ranges the result is the
hand-computed post-image: each hunk's replacement sits at its recorded
pre-image position, separated by the untouched stretches of the file. -/
theorem spec_C3_reverse_order :
    (∀ (ls : List String) (h1 h2 : DiffHunk),
      applyHunksGo ls [h1, h2] = (applyHunk ls h2).bind (fun l => applyHunk l h1)) ∧
    (∀ (ls : List String) (h1 h2 : DiffHunk),
      1 ≤ h1.OldStart → 0 ≤ h1.OldCount → 0 ≤ h2.OldCount →
      h1.OldStart + h1.OldCount ≤ h2.OldStart →
      h2.OldStart - 1 + h2.OldCount ≤ (ls.length : Int) →
      applyHunksGo ls [h1, h2] =
        some (ls.take (h1.OldStart - 1).toNat ++ replLines h1 ++
              (ls.take (h2.OldStart - 1).toNat).drop
                ((h1.OldStart - 1).toNat + h1.OldCount.toNat) ++
              replLines h2 ++ ls.drop ((h2.OldStart - 1).toNat + h2.OldCount.toNat))) := by
  refine ⟨fun ls h1 h2 => rfl, ?_⟩
  intro ls h1 h2 hs1 hc1 hc2 hasc hb2
  have hs2 : 1 ≤ h2.OldStart := by omega
  have hsplice2 := applyHunk_splice ls h2 hs2 hc2 hb2
  have htk2len : (ls.take (h2.OldStart - 1).toNat).length = (h2.OldStart - 1).toNat := by
    rw [List.length_take]; omega
  have hcut : (h1.OldStart - 1).toNat + h1.OldCount.toNat ≤ (h2.OldStart - 1).toNat := by
    omega
  have hb1 : h1.OldStart - 1 + h1.OldCount ≤
      (((ls.take (h2.OldStart - 1).toNat ++
         (replLines h2 ++ ls.drop ((h2.OldStart - 1).toNat + h2.OldCount.toNat)))).length : Int) := by
    rw [List.length_append, htk2len]
    omega
  have hsplice1 := applyHunk_splice
    (ls.take (h2.OldStart - 1).toNat ++
      (replLines h2 ++ ls.drop ((h2.OldStart - 1).toNat + h2.OldCount.toNat))) h1 hs1 hc1 hb1
  have htake : (ls.take (h2.OldStart - 1).toNat ++
      (replLines h2 ++ ls.drop ((h2.OldStart - 1).toNat + h2.OldCount.toNat))).take
        (h1.OldStart - 1).toNat = ls.take (h1.OldStart - 1).toNat := by
    rw [List.take_append_of_le_length (by omega), List.take_take, min_eq_left (by omega)]
  have hdrop : (ls.take (h2.OldStart - 1).toNat ++
      (replLines h2 ++ ls.drop ((h2.OldStart - 1).toNat + h2.OldCount.toNat))).drop
        ((h1.OldStart - 1).toNat + h1.OldCount.toNat) =
      (ls.take (h2.OldStart - 1).toNat).drop ((h1.OldStart - 1).toNat + h1.OldCount.toNat) ++
        (replLines h2 ++ ls.drop ((h2.OldStart - 1).toNat + h2.OldCount.toNat)) := by
    rw [List.drop_append_of_le_length (by omega)]
  calc applyHunksGo ls [h1, h2]
      = (applyHunk ls h2).bind (fun l => applyHunk l h1) := rfl
    _ = applyHunk (ls.take (h2.OldStart - 1).toNat ++
          (replLines h2 ++ ls.drop ((h2.OldStart - 1).toNat + h2.OldCount.toNat))) h1 := by
        rw [hsplice2, Option.some_bind, List.append_assoc]
    _ = some (ls.take (h1.OldStart - 1).toNat ++ replLines h1 ++
          ((ls.take (h2.OldStart - 1).toNat).drop
            ((h1.OldStart - 1).toNat + h1.OldCount.toNat) ++
           (replLines h2 ++ ls.drop ((h2.OldStart - 1).toNat + h2.OldCount.toNat)))) := by
        rw [hsplice1, htake, hdrop, List.append_assoc]
    _ = some (ls.take (h1.OldStart - 1).toNat ++ replLines h1 ++
          (ls.take (h2.OldStart - 1).toNat).drop
            ((h1.OldStart - 1).toNat + h1.OldCount.toNat) ++
          replLines h2 ++ ls.drop ((h2.OldStart - 1).toNat + h2.OldCount.toNat)) := by
        simp [List.append_assoc]

/-- Closed instance of `spec_C3_reverse_order` at the C1 test vector:
the two non-overlapping single-line hunks land at their recorded
pre-image positions. -/
theorem spec_C3_witness :
    applyHunksGo ["a", "b", "c", "d"] [hunkC1a, hunkC1b] = some ["A", "b", "C", "d"] := by
  have h := spec_C3_reverse_order.2 ["a", "b", "c", "d"] hunkC1a hunkC1b
    (by decide) (by decide) (by decide) (by decide) (by decide)
  exact h.trans (by decide)

theorem splitChar_of_not_mem (c : Char) (l : List Char) (hc : c ∉ l) :
    splitChar c l = [l] := by
  induction l with
  | nil => rfl
  | cons x xs ih =>
    have hxc : ¬ x = c := fun hx => hc (hx ▸ List.mem_cons_self x xs)
    have htail : c ∉ xs := fun hm => hc (List.mem_cons_of_mem x hm)
    rw [splitChar, ih htail]
    simp [hxc]

/-- C6: in a hunk-header range token `start[,count]`, an absent `,count`
part (no comma in the token) yields `count = 1`, and a start or count token
that is not a well-formed number (rejected by `Atoi`) parses as zero;
`parseRange` itself never fails (it is a total function). -/
theorem spec_C6_range_defaults :
    (∀ s : String, ',' ∉ s.data → (parseRange s).2 = 1) ∧
    (∀ (s t : String) (rest : List String), goSplit s ',' = t :: rest →
      parseIntOpt t = none → (parseRange s).1 = 0) ∧
    (∀ (s t₁ t₂ : String) (rest : List String), goSplit s ',' = t₁ :: t₂ :: rest →
      parseIntOpt t₂ = none → (parseRange s).2 = 0) := by
  refine ⟨?_, ?_, ?_⟩
  · intro s hc
    have hsplit : goSplit s ',' = [s] := by
      rw [goSplit, splitChar_of_not_mem ',' s.data hc]
      rfl
    rw [parseRange, hsplit]
  · intro s t rest hsplit hbad
    rw [parseRange, hsplit]
    cases rest with
    | nil => simp [goAtoi, hbad]
    | cons u us => simp [goAtoi, hbad]
  · intro s t₁ t₂ rest hsplit hbad
    rw [parseRange, hsplit]
    simp [goAtoi, hbad]

/-- Closed instance of `spec_C6_range_defaults`: `"7"` has no count part so
the count defaults to 1, and both tokens of `"x,y"` are malformed so both
components parse as zero. -/
theorem spec_C6_witness :
    (parseRange "7").2 = 1 ∧ (parseRange "x,y").1 = 0 ∧ (parseRange "x,y").2 = 0 := by
  refine ⟨spec_C6_range_defaults.1 "7" (by decide),
          spec_C6_range_defaults.2.1 "x,y" "x" ["y"] (by decide) (by decide),
          spec_C6_range_defaults.2.2 "x,y" "x" "y" [] (by decide) (by decide)⟩

theorem goStartsWith_self_append (pre s : String) : goStartsWith (pre ++ s) pre = true := by
  simp [goStartsWith, show (pre ++ s).data = pre.data ++ s.data from rfl,
    List.isPrefixOf_iff_prefix]

theorem goDropStart_self_append (pre s : String) : goDropStart (pre ++ s) pre = s := by
  have hpre : pre.data.isPrefixOf (pre ++ s).data = true := goStartsWith_self_append pre s
  rw [goDropStart, if_pos hpre]
  show String.mk ((pre.data ++ s.data).drop pre.data.length) = s
  rw [List.drop_left]

theorem plusline_ne_empty (fp : String) : ("+++ b/" ++ fp) ≠ "" := by
  intro h
  have hdata : ("+++ b/" ++ fp).data = "".data := congrArg String.data h
  simp [show ("+++ b/" ++ fp).data = "+++ b/".data ++ fp.data from rfl] at hdata

theorem plusline_not_minus (fp : String) : goStartsWith ("+++ b/" ++ fp) "--- a/" = false := by
  have hd : ("+++ b/" ++ fp).data = '+' :: '+' :: '+' :: ' ' :: 'b' :: '/' :: fp.data := rfl
  simp [goStartsWith, hd, show "--- a/".data = ['-', '-', '-', ' ', 'a', '/'] from rfl,
    List.isPrefixOf]

/-- C5: whatever the surrounding diff text, when the loop meets a line that
trims to `+++ b/<path>` while the open `DiffChange` carries a different
path, the step fails with the path-mismatch message, the whole parse loop
stops with that error right there (no `DiffChange` list is produced, Go's
`nil` result), and on a concrete mismatched diff `parseDiff` returns
exactly that error. -/
theorem spec_C5_path_mismatch :
    (∀ (changes : List DiffChange) (c : DiffChange) (ch : Option DiffHunk) (line fp : String),
      goTrim line = "+++ b/" ++ fp → c.FilePath ≠ fp →
      parseDiffStep changes (some c) ch line =
        .error ("mismatched file paths in diff: " ++ c.FilePath ++ " vs " ++ fp)) ∧
    (∀ (line : String) (rest : List String) (changes : List DiffChange)
       (cc : Option DiffChange) (ch : Option DiffHunk) (e : String),
      parseDiffStep changes cc ch line = .error e →
      parseDiffLoop (line :: rest) changes cc ch = .error e) ∧
    parseDiff "--- a/x\n+++ b/y" = .error "mismatched file paths in diff: x vs y" := by
  refine ⟨?_, ?_, by decide⟩
  · intro changes c ch line fp hl hne
    unfold parseDiffStep
    rw [hl]
    simp [plusline_ne_empty, goStartsWith_self_append, plusline_not_minus,
      goDropStart_self_append, hne]
  · intro line rest changes cc ch e hstep
    rw [parseDiffLoop, hstep]

/-- Closed instance of `spec_C5_path_mismatch`: an open change for `"p"`
meeting the line `+++ b/q` aborts the loop with the mismatch error. -/
theorem spec_C5_witness :
    parseDiffLoop ["+++ b/q", "ignored"] [] (some { FilePath := "p" }) none =
      .error "mismatched file paths in diff: p vs q" := by
  have hstep := spec_C5_path_mismatch.1 [] { FilePath := "p" } none "+++ b/q" "q"
    (by decide) (by decide)
  have hloop := spec_C5_path_mismatch.2.1 "+++ b/q" ["ignored"] []
    (some { FilePath := "p" }) none _ hstep
  exact hloop.trans (by decide)

/-- C9: `applyDiff` is fail-fast. When `parseDiff` fails, the error is
wrapped and returned with the filesystem untouched (no file is modified).
When the change for one file fails after some prefix of changes succeeded,
the error is wrapped with that file's path and returned at once: the
changes after it are never attempted (the result does not depend on them),
and the files the successful prefix already wrote stay written (no
rollback). -/
theorem spec_C9_fail_fast :
    (∀ (s : String) (fs : FS) (e : String), parseDiff s = .error e →
      applyDiffGo s fs = some (fs, some ("failed to parse diff: " ++ e))) ∧
    (∀ (pre : List DiffChange) (c : DiffChange) (post : List DiffChange)
       (fs fs' fs'' : FS) (e : String),
      applyChangesGo pre fs = some (fs', none) →
      applyFileChangeFS c fs' = some (fs'', some e) →
      applyChangesGo (pre ++ c :: post) fs =
        some (fs'', some ("failed to apply change to " ++ c.FilePath ++ ": " ++ e))) := by
  constructor
  · intro s fs e hparse
    rw [applyDiffGo, hparse]
  · intro pre c post fs fs' fs'' e hpre hfail
    induction pre generalizing fs with
    | nil =>
      rw [applyChangesGo] at hpre
      have hfs : fs = fs' := by
        injection hpre with h1
        exact congrArg Prod.fst h1
      subst hfs
      rw [List.nil_append, applyChangesGo, hfail]
    | cons a pre ih =>
      rw [applyChangesGo] at hpre
      rw [List.cons_append, applyChangesGo]
      cases hstep : applyFileChangeFS a fs with
      | none =>
        rw [hstep] at hpre
        exact absurd hpre (by simp)
      | some res =>
        rcases res with ⟨fs1, oe⟩
        cases oe with
        | none =>
          rw [hstep] at hpre
          exact ih fs1 hpre
        | some e1 =>
          rw [hstep] at hpre
          exact absurd hpre (by simp)

/-- Closed instance of `spec_C9_fail_fast`: the change to `f1` is written,
the change to the absent file `missing` fails with the wrapped error, and
the trailing change to `f2` is never attempted (`f2` keeps its content). -/
theorem spec_C9_witness :
    applyChangesGo
      [{ FilePath := "f1",
         Hunks := [{ OldStart := 1, OldCount := 1, NewStart := 1, NewCount := 1,
                     Lines := [{ Ty := "+", Content := "Z" }] }] },
       { FilePath := "missing" },
       { FilePath := "f2",
         Hunks := [{ OldStart := 1, OldCount := 1, NewStart := 1, NewCount := 1,
                     Lines := [{ Ty := "+", Content := "W" }] }] }]
      [("f1", "a\n"), ("f2", "b\n")] =
      some ([("f1", "Z\n"), ("f1", "a\n"), ("f2", "b\n")],
            some "failed to apply change to missing: failed to read file") := by
  have h := spec_C9_fail_fast.2
    [{ FilePath := "f1",
       Hunks := [{ OldStart := 1, OldCount := 1, NewStart := 1, NewCount := 1,
                   Lines := [{ Ty := "+", Content := "Z" }] }] }]
    { FilePath := "missing" }
    [{ FilePath := "f2",
       Hunks := [{ OldStart := 1, OldCount := 1, NewStart := 1, NewCount := 1,
                   Lines := [{ Ty := "+", Content := "W" }] }] }]
    [("f1", "a\n"), ("f2", "b\n")]
    [("f1", "Z\n"), ("f1", "a\n"), ("f2", "b\n")]
    [("f1", "Z\n"), ("f1", "a\n"), ("f2", "b\n")]
    "failed to read file" (by decide) (by decide)
  exact h.trans (by decide)

end SlopShop
